import Mathlib

/-!
Verification of the Monopoly-style rules engine of this repository.

The game logic lives in the React frontend: `GameContext.jsx` holds the shared
mutable state (players, ownership, mortgaged, houses, bankruptPlayers) and the
state-updating helpers (`updateMoney`, `buildHouse`, `sellHouse`,
`declareBankruptcy`, `mortgageProperty`, `unmortgageProperty`, jail helpers),
while the game page component holds the per-turn state (`hasRolled`,
`pendingTrade`, `activeCell`, `chanceIndex`, dice) and the turn logic
(`rollDice`, `handleCellAction`, `buyProperty`, `endTurn`, `applyTrade`,
`movePlayerTo`, `applyChance`, `canBuildHere`, `ownsFullColorSet`).

The embedding below translates that code directly:
* JS objects keyed by cell id become association lists with a `lookupKey`
  function; `{...prev, [k]: v}` becomes `objInsert`.
* `players.map((p, idx) => idx === i ? f(p) : p)` becomes `updAt`.
* React `setX` calls are sequenced state updates on one `GameState` record.
* JS numbers holding money are `Int` (they go negative in the source);
  positions, cell ids and house counts are `Nat`.
* The board data file is not part of the sources; functions that read
  `boardCells` take the board as an explicit `List Cell` parameter.
* Animation, logging (`addLog`), and AI-scheduling guards are presentation
  concerns and are not part of the state transition being modelled.
-/

namespace MonopolyEngine

/-- Lookup in a JS-object-like association list (first binding wins). -/
def lookupKey {α : Type} : List (Nat × α) → Nat → Option α
  | [], _ => none
  | (k, v) :: rest, x => if x = k then some v else lookupKey rest x

/-- Embeds `{...prev, [k]: v}`: insert or overwrite the binding of key `k`. -/
def objInsert {α : Type} (m : List (Nat × α)) (k : Nat) (v : α) : List (Nat × α) :=
  (k, v) :: m.filter (fun e => decide (e.1 ≠ k))

/-- Embeds `l.map((p, idx) => idx === i ? f(p) : p)`. -/
def updAt {α : Type} : List α → Nat → (α → α) → List α
  | [], _, _ => []
  | p :: ps, 0, f => f p :: ps
  | p :: ps, Nat.succ n, f => p :: updAt ps n f

/-- A player record, as created by the start page
(`{id, name, type, money, position, inJail, jailTurnsLeft, jailFreeCard}`;
the id is the roster index, name/type are presentation). -/
structure Player where
  money : Int
  position : Nat
  inJail : Bool
  jailTurnsLeft : Nat
  jailFreeCard : Bool
deriving DecidableEq

/-- The string tag `cell.type` of board cells; `other` covers the tags the
landing dispatch does not match (start, jail visiting, free parking). -/
inductive CellType
  | property
  | railroad
  | utility
  | tax
  | chance
  | gotoJail
  | other
deriving DecidableEq

/-- A board cell. JS board cells are plain objects carrying the fields their
type uses; colors are abstracted to numeric group ids. `rentMultiplierOne` and
`rentMultiplierTwo` embed `cell.rentMultiplier.one/.two` of utility cells. -/
structure Cell where
  id : Nat
  type : CellType
  color : Option Nat
  price : Int
  rent : List Nat
  houseCost : Int
  mortgage : Nat
  rentMultiplierOne : Nat
  rentMultiplierTwo : Nat
  amount : Int
deriving DecidableEq

/-- Embeds `boardCells[i]` (cells are stored at the index equal to their id). -/
def getCellAt (board : List Cell) (i : Nat) : Option Cell :=
  board.get? i

/-- The `offer` object built by the trade modal. -/
structure TradeOffer where
  giveProperties : List Nat
  takeProperties : List Nat
  giveMoney : Int
  takeMoney : Int
deriving DecidableEq

/-- A pending trade `{from, to, offer}` as stored by `handleConfirmTrade`. -/
structure Trade where
  fromPlayer : Nat
  toPlayer : Nat
  offer : TradeOffer
deriving DecidableEq

/-- Chance card effect variants from `chanceCards.js` (the card text is
presentation only). -/
inductive ChanceEffect
  | money (amount : Int)
  | move (steps : Int)
  | goto (position : Nat)
  | jail
  | jailFree
  | collectFromAll (amount : Int)
  | payAll (amount : Int)
  | payPerHouse (amount : Int)
deriving DecidableEq

/-- A chance card. -/
structure ChanceCard where
  effect : ChanceEffect
deriving DecidableEq

/-- The live game state: the `GameContext` state plus the game page's
per-turn component state, merged into one record. -/
structure GameState where
  players : List Player
  currentPlayer : Nat
  ownership : List (Nat × Nat)
  mortgaged : List (Nat × Bool)
  houses : List (Nat × Nat)
  bankruptPlayers : List Nat
  hasRolled : Bool
  pendingTrade : Option Trade
  activeCell : Option Cell
  chanceIndex : Nat
  chanceCard : Option ChanceCard
  dice : Nat × Nat
deriving DecidableEq

/-- Embeds `players[i]?.money ?? 0`. -/
def playerMoney (s : GameState) (i : Nat) : Int :=
  ((s.players.get? i).map Player.money).getD 0

/-- Embeds `players[i].position` (0 when out of range, which callers never hit). -/
def playerPosition (s : GameState) (i : Nat) : Nat :=
  ((s.players.get? i).map Player.position).getD 0

/-- Embeds `players[i]?.inJail`. -/
def playerInJail (s : GameState) (i : Nat) : Bool :=
  ((s.players.get? i).map Player.inJail).getD false

/-- Embeds `GameContext.updateMoney`: add `amount` to player `pid`'s money. -/
def updateMoney (s : GameState) (pid : Nat) (amount : Int) : GameState :=
  { s with players := updAt s.players pid (fun p => { p with money := p.money + amount }) }

/-- Embeds `houses[cellId] || 0`. -/
def houseCount (s : GameState) (cellId : Nat) : Nat :=
  (lookupKey s.houses cellId).getD 0

/-- Truthiness of `mortgaged[cellId]`. -/
def isMortgaged (s : GameState) (cellId : Nat) : Bool :=
  (lookupKey s.mortgaged cellId).getD false

/-- Embeds `GameContext.sendToJail` (the call sites pass the default jail cell 10). -/
def sendToJail (s : GameState) (pid jailPosition : Nat) : GameState :=
  { s with players := (updAt s.players pid
      (fun p => { p with position := jailPosition, inJail := true, jailTurnsLeft := 3 })) }

/-- Embeds `GameContext.sellHouse`: bail out unless `pid` owns the cell; decrement the
house count only when it is positive; credit the refund. -/
def sellHouse (s : GameState) (cellId pid : Nat) (refund : Int) : GameState :=
  if lookupKey s.ownership cellId ≠ some pid then s
  else
    let count := houseCount s cellId
    let s1 := { s with houses :=
      if count ≤ 0 then s.houses else objInsert s.houses cellId (count - 1) }
    updateMoney s1 pid refund

/-- Embeds `GameContext.buildHouse`: refuse at the hotel cap or without the money,
otherwise debit the cost and increment the count. -/
def buildHouse (s : GameState) (cellId pid : Nat) (cost : Int) : GameState :=
  let current := houseCount s cellId
  if 5 ≤ current then s
  else if playerMoney s pid < cost then s
  else { updateMoney s pid (-cost) with houses := objInsert s.houses cellId (current + 1) }

/-- Embeds `GameContext.declareBankruptcy`: drop the player's ownership entries, drop
mortgage and house entries of the cells the player owned (the filters read the
pre-call ownership snapshot, exactly as the JS closures do), and add the player
to `bankruptPlayers`. The player record itself (money included) is untouched. -/
def declareBankruptcy (s : GameState) (pid : Nat) : GameState :=
  { s with
    ownership := s.ownership.filter (fun e => decide (e.2 ≠ pid)),
    mortgaged := s.mortgaged.filter (fun e => decide (lookupKey s.ownership e.1 ≠ some pid)),
    houses := s.houses.filter (fun e => decide (lookupKey s.ownership e.1 ≠ some pid)),
    bankruptPlayers :=
      if pid ∈ s.bankruptPlayers then s.bankruptPlayers else s.bankruptPlayers ++ [pid] }

/-- Embeds `GameContext.mortgageProperty`: no-op when houses stand on the cell,
otherwise mark mortgaged and credit the value. -/
def mortgageProperty (s : GameState) (cellId pid : Nat) (value : Int) : GameState :=
  if 0 < houseCount s cellId then s
  else updateMoney { s with mortgaged := objInsert s.mortgaged cellId true } pid value

/-- Embeds `GameContext.unmortgageProperty`: the players update debits `cost` only
from a player that can afford it, but the mortgaged flag is cleared
unconditionally afterwards. -/
def unmortgageProperty (s : GameState) (cellId pid : Nat) (cost : Int) : GameState :=
  let s1 := { s with players := (updAt s.players pid
      (fun p => if cost ≤ p.money then { p with money := p.money - cost } else p)) }
  { s1 with mortgaged := objInsert s1.mortgaged cellId false }

/-- The unmortgage price computed by the asset modal,
`Math.floor(cell.mortgage * 1.1)`, as exact rational arithmetic (the JS float
rounding agrees on the board's mortgage values). -/
def unmortgageCost (mortgage : Nat) : Nat :=
  mortgage * 11 / 10

/-- Count of `Object.entries(ownership)` whose cell is of type `t`, belongs to
`owner`, and is unmortgaged (the railroad/utility rent helper inside
`handleCellAction`). -/
def countUnmortgagedOfType (board : List Cell) (s : GameState) (owner : Nat)
    (t : CellType) : Nat :=
  (s.ownership.filter (fun e =>
    decide (e.2 = owner)
      && (match getCellAt board e.1 with
          | some c => decide (c.type = t)
          | none => false)
      && !(isMortgaged s e.1))).length

/-- Drawing on a chance cell: read `chanceCards[chanceIndex]`, advance the
cursor mod the deck length, and (human path) stage the card for the modal. -/
def drawChance (cards : List ChanceCard) (s : GameState) : GameState :=
  { s with chanceIndex := (s.chanceIndex + 1) % cards.length,
           chanceCard := cards.get? s.chanceIndex }

/-- Embeds `handleCellAction` of the game page (human path, `silent: false`):
go-to-jail teleports; a buyable cell is offered for purchase when unowned,
pays no rent when mortgaged, and otherwise pays rent to a different owner
(street rent by house count, railroad rent by unmortgaged railroads owned,
utility rent by dice total times the multiplier); a chance cell draws a card;
a tax cell debits its amount. -/
def handleCellAction (board : List Cell) (cards : List ChanceCard)
    (s : GameState) (cellOpt : Option Cell) : GameState :=
  match cellOpt with
  | none => s
  | some cell =>
    if cell.type = CellType.gotoJail then
      sendToJail s s.currentPlayer 10
    else if cell.type = CellType.property ∨ cell.type = CellType.railroad
        ∨ cell.type = CellType.utility then
      match lookupKey s.ownership cell.id with
      | none => { s with activeCell := some cell }
      | some owner =>
        if isMortgaged s cell.id then s
        else if owner ≠ s.currentPlayer then
          let rent : Nat :=
            if cell.type = CellType.property then
              cell.rent.getD (min (houseCount s cell.id) (cell.rent.length - 1)) 0
            else if cell.type = CellType.railroad then
              let ownedRails := countUnmortgagedOfType board s owner CellType.railroad
              if 0 < ownedRails then cell.rent.getD (ownedRails - 1) 0 else 0
            else
              let ownedUtilities := countUnmortgagedOfType board s owner CellType.utility
              let diceTotal := s.dice.1 + s.dice.2
              diceTotal * (if ownedUtilities = 2 then cell.rentMultiplierTwo
                           else cell.rentMultiplierOne)
          if 0 < rent then
            updateMoney (updateMoney s s.currentPlayer (-(rent : Int))) owner (rent : Int)
          else s
        else s
    else if cell.type = CellType.chance then
      drawChance cards s
    else if cell.type = CellType.tax then
      updateMoney s s.currentPlayer (-cell.amount)
    else s

/-- Embeds `buyProperty` of the game page: with a purchase decision pending, transfer
ownership of the active cell to the current player, debit the price, and close
the decision. There is no cash check. -/
def buyProperty (s : GameState) : GameState :=
  match s.activeCell with
  | none => s
  | some cell =>
    let s1 := { s with ownership := objInsert s.ownership cell.id s.currentPlayer }
    let s2 := updateMoney s1 s.currentPlayer (-cell.price)
    { s2 with activeCell := none }

/-- The `do next = (next+1) % len while (bankrupt.includes(next))` loop of
`endTurn`, made total with a fuel bound (the JS loop diverges when every index
is bankrupt; the theorems assume a non-bankrupt index exists within reach). -/
def nextAliveAux (len : Nat) (bank : List Nat) : Nat → Nat → Nat
  | cur, 0 => (cur + 1) % len
  | cur, Nat.succ fuel =>
    let nxt := (cur + 1) % len
    if nxt ∈ bank then nextAliveAux len bank nxt fuel else nxt

/-- Embeds `endTurn` of the game page: refuse unless a roll happened this turn, then
advance `currentPlayer` to the next non-bankrupt roster index and reset the
rolled flag. Nothing else (in particular not `pendingTrade`) is touched. -/
def endTurn (s : GameState) : GameState :=
  if s.hasRolled = false then s
  else
    { s with hasRolled := false,
             currentPlayer :=
               nextAliveAux s.players.length s.bankruptPlayers s.currentPlayer
                 s.players.length }

/-- Step 1 of `applyTrade` (`setOwnership`): every `giveProperties` cell is
written to the recipient, then every `takeProperties` cell to the proposer. -/
def tradeOwnership (own : List (Nat × Nat)) (t : Trade) : List (Nat × Nat) :=
  t.offer.takeProperties.foldl (fun m c => objInsert m c t.fromPlayer)
    (t.offer.giveProperties.foldl (fun m c => objInsert m c t.toPlayer) own)

/-- One cash leg of step 2 of `applyTrade`: when the amount is positive, debit
the payer and credit the receiver. -/
def tradeCash (s : GameState) (payer receiver : Nat) (amt : Int) : GameState :=
  if 0 < amt then updateMoney (updateMoney s payer (-amt)) receiver amt else s

/-- Embeds `applyTrade` of the game page (the accept handler of the trade review
modal): move every `giveProperties` cell to the recipient and every
`takeProperties` cell to the proposer, transfer the positive cash legs in both
directions, and clear the pending trade. No validity re-check happens here. -/
def applyTrade (s : GameState) (t : Trade) : GameState :=
  let s1 := { s with ownership := tradeOwnership s.ownership t }
  let s2 := tradeCash s1 t.fromPlayer t.toPlayer t.offer.giveMoney
  let s3 := tradeCash s2 t.toPlayer t.fromPlayer t.offer.takeMoney
  { s3 with pendingTrade := none }

/-- The per-tick movement of the roll animation interval: `steps` times do
`pos = (pos + 1) % 40`, recording whether position 0 was ever hit. -/
def moveSteps : Nat → Nat → Bool → Nat × Bool
  | 0, pos, flag => (pos, flag)
  | Nat.succ n, pos, flag =>
    let p := (pos + 1) % 40
    moveSteps n p (flag || decide (p = 0))

/-- The `setPlayers` update at the end of the roll interval: the current player
moves to the final position and is credited 200 exactly when the walk passed
the start cell. -/
def rollDicePlayersUpdate (s : GameState) (d1 d2 : Nat) : GameState :=
  let r := moveSteps (d1 + d2) (playerPosition s s.currentPlayer) false
  { s with players := (updAt s.players s.currentPlayer
      (fun p => { p with position := r.1,
                         money := p.money + (if r.2 then 200 else 0) })) }

/-- Embeds `rollDice` of the game page (human path; the AI-turn guards and the
animation pacing are scheduling/presentation): refuse while in jail, after a
roll, or with an empty roster; otherwise record the dice, move the player with
the pass-start credit, resolve the landed cell, and set the rolled flag. -/
def rollDice (board : List Cell) (cards : List ChanceCard) (s : GameState)
    (d1 d2 : Nat) : GameState :=
  if playerInJail s s.currentPlayer then s
  else if s.hasRolled then s
  else if s.players.isEmpty then s
  else
    let s0 := { s with dice := (d1, d2) }
    let s1 := rollDicePlayersUpdate s0 d1 d2
    let newPos := (moveSteps (d1 + d2) (playerPosition s s.currentPlayer) false).1
    { handleCellAction board cards s1 (getCellAt board newPos) with hasRolled := true }

/-- The `setPlayers` update of `movePlayerTo`: relocate the current player to
`target`, crediting 200 when `awardStart` is on and the target index is below
the current position. -/
def movePlayerToUpdate (s : GameState) (target : Nat) (awardStart : Bool) : GameState :=
  let pos := playerPosition s s.currentPlayer
  let passedStart := awardStart && decide (target < pos)
  { s with players := (updAt s.players s.currentPlayer
      (fun p => { p with position := target,
                         money := p.money + (if passedStart then 200 else 0) })) }

/-- Embeds `movePlayerTo` of the game page: the relocation update followed by landing
resolution at the target cell. -/
def movePlayerTo (board : List Cell) (cards : List ChanceCard) (s : GameState)
    (target : Nat) (awardStart : Bool) : GameState :=
  handleCellAction board cards (movePlayerToUpdate s target awardStart)
    (getCellAt board target)

/-- Embeds `applyChance` of the game page: interpret a drawn card's effect (the human
path, with the drawer's stored position as base). -/
def applyChance (board : List Cell) (cards : List ChanceCard) (s : GameState)
    (card : ChanceCard) : GameState :=
  match card.effect with
  | ChanceEffect.money amount =>
    { updateMoney s s.currentPlayer amount with chanceCard := none }
  | ChanceEffect.move steps =>
    let pos := playerPosition s s.currentPlayer
    let newPos := (Int.tmod ((pos : Int) + steps + 40) 40).toNat
    { movePlayerTo board cards s newPos true with chanceCard := none }
  | ChanceEffect.goto position =>
    { movePlayerTo board cards s position false with chanceCard := none }
  | ChanceEffect.jail =>
    { sendToJail s s.currentPlayer 10 with chanceCard := none, hasRolled := true }
  | ChanceEffect.jailFree =>
    { s with players := (updAt s.players s.currentPlayer
        (fun p => { p with jailFreeCard := true })), chanceCard := none }
  | ChanceEffect.collectFromAll amount =>
    let s1 := (List.range s.players.length).foldl
      (fun acc idx =>
        if idx ≠ s.currentPlayer ∧ idx ∉ s.bankruptPlayers then
          updateMoney (updateMoney acc idx (-amount)) s.currentPlayer amount
        else acc) s
    { s1 with chanceCard := none }
  | ChanceEffect.payAll amount =>
    let s1 := (List.range s.players.length).foldl
      (fun acc idx =>
        if idx ≠ s.currentPlayer ∧ idx ∉ s.bankruptPlayers then
          updateMoney (updateMoney acc idx amount) s.currentPlayer (-amount)
        else acc) s
    { s1 with chanceCard := none }
  | ChanceEffect.payPerHouse amount =>
    let totalHouses := s.houses.foldl
      (fun (sum : Nat) e =>
        if lookupKey s.ownership e.1 = some s.currentPlayer then sum + e.2 else sum) 0
    let total : Int := (totalHouses : Int) * amount
    let s1 := if 0 < total then updateMoney s s.currentPlayer (-total) else s
    { s1 with chanceCard := none }

/-- The street cells of `cell`'s color group (`boardCells.filter(...)` in
`ownsFullColorSet`/`canBuildHere`/`canSellHere`). -/
def groupCells (board : List Cell) (cell : Cell) : List Cell :=
  board.filter (fun c => decide (c.color = cell.color ∧ c.type = CellType.property))

/-- Embeds `ownsFullColorSet` of the game page: false for colorless cells, else the
current player owns every street of the color group. -/
def ownsFullColorSet (board : List Cell) (s : GameState) (cell : Cell) : Bool :=
  match cell.color with
  | none => false
  | some _ =>
    (groupCells board cell).all
      (fun c => decide (lookupKey s.ownership c.id = some s.currentPlayer))

/-- The group's current house counts, in board order. -/
def groupCounts (board : List Cell) (s : GameState) (cell : Cell) : List Nat :=
  (groupCells board cell).map (fun c => houseCount s c.id)

/-- Embeds `canBuildHere` of the game page: the full color group is owned and the
cell's house count equals the group minimum (`Math.min()` of an empty group is
infinite, making the comparison false). -/
def canBuildHere (board : List Cell) (s : GameState) (cell : Cell) : Bool :=
  if ownsFullColorSet board s cell = false then false
  else
    match (groupCounts board s cell).min? with
    | none => false
    | some m => decide (houseCount s cell.id = m)

/-- Embeds `canSellHere` of the game page: the full color group is owned and the
cell's house count equals the group maximum, which must be positive. -/
def canSellHere (board : List Cell) (s : GameState) (cell : Cell) : Bool :=
  if ownsFullColorSet board s cell = false then false
  else
    match (groupCounts board s cell).max? with
    | none => false
    | some m => decide (houseCount s cell.id = m ∧ 0 < m)

/-- The build command as reachable from the asset modal: the modal renders the
build button only for streets of a fully owned, unmortgaged group and enables
it only below the hotel cap and when affordable; the click handler then guards
with `canBuildHere` before calling `buildHouse` with the cell's house cost. -/
def buildCommand (board : List Cell) (s : GameState) (cellId : Nat) : GameState :=
  match getCellAt board cellId with
  | none => s
  | some cell =>
    if cell.type = CellType.property
        ∧ ownsFullColorSet board s cell = true
        ∧ isMortgaged s cell.id = false
        ∧ ¬ (playerMoney s s.currentPlayer < cell.houseCost)
        ∧ houseCount s cell.id < 5 then
      if canBuildHere board s cell then
        buildHouse s cellId s.currentPlayer cell.houseCost
      else s
    else s

/-- The claim's even-build condition, stated from the spec's words: no count in
the list exceeds the list's minimum by more than 1. -/
def evenBuildOk (counts : List Nat) : Bool :=
  match counts.min? with
  | none => true
  | some m => counts.all (fun y => decide (y ≤ m + 1))

/-- The group's house counts after incrementing `cell`'s count by one. -/
def groupCountsAfterBuild (board : List Cell) (s : GameState) (cell : Cell) : List Nat :=
  (groupCells board cell).map
    (fun c => if c.id = cell.id then houseCount s c.id + 1 else houseCount s c.id)

/-- The build-legality conditions exactly as the claim states them (a
spec-side definition, to be compared with the source-side `buildCommand`):
full color group owned, cell unmortgaged, house count below 5, even-build
invariant holding after the increment, and the house cost affordable. -/
def specBuildLegal (board : List Cell) (s : GameState) (cell : Cell) : Bool :=
  ownsFullColorSet board s cell
  && !(isMortgaged s cell.id)
  && decide (houseCount s cell.id < 5)
  && evenBuildOk (groupCountsAfterBuild board s cell)
  && decide (cell.houseCost ≤ playerMoney s s.currentPlayer)

/-! Concrete states used to instantiate the theorems below. -/

/-- A fresh player with the given money and position. -/
def mkPlayer (money : Int) (position : Nat) : Player :=
  ⟨money, position, false, 0, false⟩

/-- A street cell. -/
def mkStreet (id color : Nat) (price : Int) (rent : List Nat) (houseCost : Int)
    (mortgage : Nat) : Cell :=
  ⟨id, CellType.property, some color, price, rent, houseCost, mortgage, 0, 0, 0⟩

/-- A fresh game state over the given roster. -/
def baseState (players : List Player) : GameState :=
  ⟨players, 0, [], [], [], [], false, none, none, 0, none, (1, 1)⟩

/-- A pending trade between players 0 and 1 with both property and cash legs. -/
def exTrade : Trade :=
  ⟨0, 1, ⟨[5], [7], 30, 10⟩⟩

/-- State holding `exTrade` pending, with the listed cells owned as offered. -/
def exTradeState : GameState :=
  { baseState [mkPlayer 500 0, mkPlayer 300 0] with
      ownership := [(5, 0), (7, 1)], pendingTrade := some exTrade }

/-- A cash-only offer of 100 from a proposer who has 0. -/
def cexTrade : Trade :=
  ⟨0, 1, ⟨[], [], 100, 0⟩⟩

/-- State where `cexTrade` is pending but the proposer cannot fund it. -/
def cexTradeState : GameState :=
  { baseState [mkPlayer 0 0, mkPlayer 0 0] with pendingTrade := some cexTrade }

/-- An unowned street priced at 100. -/
def buyCell : Cell :=
  mkStreet 3 0 100 [2, 10, 30, 90, 160, 250] 50 50

/-- A purchase decision pending for a player with 500. -/
def exBuyState : GameState :=
  { baseState [mkPlayer 500 3] with activeCell := some buyCell }

/-- A purchase decision pending for a player with 0 cash. -/
def cexBuyState : GameState :=
  { baseState [mkPlayer 0 3] with activeCell := some buyCell }

/-- A player with 500 cash owning a mortgaged, built-up cell. -/
def cexBankState : GameState :=
  { baseState [mkPlayer 500 0] with
      ownership := [(2, 0)], mortgaged := [(2, true)], houses := [(2, 3)] }

/-- A player with 50 cash holding a mortgaged cell (mortgage value 100, so the
unmortgage price is 110). -/
def bugUnmortgageState : GameState :=
  { baseState [mkPlayer 50 0] with ownership := [(3, 0)], mortgaged := [(3, true)] }

/-- A player standing on cell 35 about to roll. -/
def exRollState : GameState :=
  baseState [mkPlayer 100 35]

/-- A street with the base-rent table of the spec's example. -/
def rentCell : Cell :=
  mkStreet 1 0 60 [2, 10, 30, 90, 160, 250] 50 30

/-- Player 1 owns `rentCell` (and the rest of its color group); player 0 lands. -/
def exRentState : GameState :=
  { baseState [mkPlayer 100 1, mkPlayer 100 0] with ownership := [(1, 1), (3, 1)] }

/-- A three-street color group. -/
def groupBoard : List Cell :=
  [mkStreet 0 0 60 [2, 10, 30, 90, 160, 250] 50 30,
   mkStreet 1 0 60 [4, 20, 60, 180, 320, 450] 50 30,
   mkStreet 2 0 80 [6, 30, 90, 270, 400, 550] 50 40]

/-- Player 0 owns all of `groupBoard` with house counts [1, 1, 0]. -/
def exBuildState : GameState :=
  { baseState [mkPlayer 1000 0] with
      ownership := [(0, 0), (1, 0), (2, 0)], houses := [(0, 1), (1, 1)] }

/-- An unresolved offer pending while player 0 ends the turn. -/
def cexEndTrade : Trade :=
  ⟨0, 2, ⟨[9], [], 0, 0⟩⟩

/-- Three players, player 1 bankrupt, a roll taken, a trade still pending. -/
def cexEndState : GameState :=
  { baseState [mkPlayer 100 0, mkPlayer 100 0, mkPlayer 100 0] with
      hasRolled := true, bankruptPlayers := [1], pendingTrade := some cexEndTrade }

/-- A player on position 5 about to draw a chance card. -/
def exChanceState : GameState :=
  baseState [mkPlayer 100 5]

/-- The deck's backward-move card. -/
def backCard : ChanceCard :=
  ⟨ChanceEffect.move (-2)⟩

/-- Player 0 owns cell 4, which carries no houses. -/
def exSellState : GameState :=
  { baseState [mkPlayer 100 0] with ownership := [(4, 0)] }

/-! Helper lemmas about the association-list and roster primitives. -/

theorem lookupKey_filter_ne {α : Type} (m : List (Nat × α)) (k x : Nat) (h : x ≠ k) :
    lookupKey (m.filter (fun e => decide (e.1 ≠ k))) x = lookupKey m x := by
  induction m with
  | nil => rfl
  | cons e rest ih =>
    by_cases he : e.1 = k
    · rw [List.filter_cons, if_neg (by simp [he]), ih, lookupKey, if_neg (by omega)]
    · rw [List.filter_cons, if_pos (by simp [he]), lookupKey, lookupKey]
      by_cases hx : x = e.1
      · rw [if_pos hx, if_pos hx]
      · rw [if_neg hx, if_neg hx, ih]

theorem lookupKey_objInsert {α : Type} (m : List (Nat × α)) (k : Nat) (v : α) (x : Nat) :
    lookupKey (objInsert m k v) x = if x = k then some v else lookupKey m x := by
  unfold objInsert
  rw [lookupKey]
  by_cases h : x = k
  · rw [if_pos h, if_pos h]
  · rw [if_neg h, if_neg h, lookupKey_filter_ne _ _ _ h]

theorem lookupKey_filter_keyPred {α : Type} (m : List (Nat × α)) (P : Nat → Bool)
    (x : Nat) (hx : P x = false) :
    lookupKey (m.filter (fun e => P e.1)) x = none := by
  induction m with
  | nil => rfl
  | cons e rest ih =>
    rw [List.filter_cons]
    by_cases he : P e.1 = true
    · rw [if_pos he, lookupKey]
      have hxe : x ≠ e.1 := by
        intro hh
        rw [hh] at hx
        rw [hx] at he
        exact Bool.false_ne_true he
      rw [if_neg hxe, ih]
    · rw [if_neg he, ih]

theorem lookupKey_filter_valNe (m : List (Nat × Nat)) (p x : Nat) :
    lookupKey (m.filter (fun e => decide (e.2 ≠ p))) x ≠ some p := by
  induction m with
  | nil => intro h; exact Option.noConfusion h
  | cons e rest ih =>
    by_cases he : e.2 = p
    · rw [List.filter_cons, if_neg (by simp [he])]
      exact ih
    · rw [List.filter_cons, if_pos (by simp [he]), lookupKey]
      by_cases hx : x = e.1
      · rw [if_pos hx]
        intro hh
        exact he (Option.some.inj hh)
      · rw [if_neg hx]
        exact ih

theorem lookupKey_foldl_objInsert (L : List Nat) (m : List (Nat × Nat)) (v x : Nat) :
    lookupKey (L.foldl (fun acc c => objInsert acc c v) m) x
      = if x ∈ L then some v else lookupKey m x := by
  induction L generalizing m with
  | nil => simp
  | cons a L ih =>
    rw [List.foldl_cons, ih]
    by_cases hx : x ∈ L
    · simp [hx]
    · rw [if_neg hx, lookupKey_objInsert]
      by_cases ha : x = a
      · simp [ha]
      · simp [ha, hx]

theorem updAt_get {α : Type} (l : List α) (i j : Nat) (f : α → α) :
    (updAt l i f).get? j = if i = j then (l.get? j).map f else l.get? j := by
  induction l generalizing i j with
  | nil => cases i <;> cases j <;> simp [updAt]
  | cons a rest ih =>
    cases i with
    | zero => cases j with
      | zero => simp [updAt]
      | succ j => simp [updAt]
    | succ i => cases j with
      | zero => simp [updAt]
      | succ j =>
        simp only [updAt, List.get?_cons_succ, ih, Nat.succ_eq_add_one]
        by_cases h : i = j
        · simp [h]
        · simp [h, fun hh => h (Nat.succ_injective hh)]

theorem updAt_length {α : Type} (l : List α) (i : Nat) (f : α → α) :
    (updAt l i f).length = l.length := by
  induction l generalizing i with
  | nil => rfl
  | cons a rest ih =>
    cases i with
    | zero => rfl
    | succ i => simp [updAt, ih]

theorem updateMoney_players_length (s : GameState) (pid : Nat) (a : Int) :
    (updateMoney s pid a).players.length = s.players.length := by
  simp [updateMoney, updAt_length]

theorem playerMoney_updateMoney_self (s : GameState) (i : Nat) (a : Int)
    (h : i < s.players.length) :
    playerMoney (updateMoney s i a) i = playerMoney s i + a := by
  simp only [playerMoney, updateMoney]
  rw [updAt_get, if_pos rfl]
  cases hg : s.players.get? i with
  | none =>
    rw [List.get?_eq_none] at hg
    omega
  | some p => simp

theorem playerMoney_updateMoney_other (s : GameState) (pid : Nat) (a : Int) (i : Nat)
    (h : pid ≠ i) :
    playerMoney (updateMoney s pid a) i = playerMoney s i := by
  simp only [playerMoney, updateMoney]
  rw [updAt_get, if_neg h]

theorem moveSteps_fst (n : Nat) : ∀ (pos : Nat) (flag : Bool), pos < 40 →
    (moveSteps n pos flag).1 = (pos + n) % 40 := by
  induction n with
  | zero =>
    intro pos flag h
    simp [moveSteps, Nat.mod_eq_of_lt h]
  | succ n ih =>
    intro pos flag h
    rw [moveSteps]
    rw [ih ((pos + 1) % 40) _ (Nat.mod_lt _ (by norm_num))]
    rw [Nat.mod_add_mod]
    congr 1
    omega

theorem moveSteps_snd (n : Nat) : ∀ (pos : Nat) (flag : Bool),
    ((moveSteps n pos flag).2 = true
      ↔ flag = true ∨ ∃ k, 1 ≤ k ∧ k ≤ n ∧ (pos + k) % 40 = 0) := by
  induction n with
  | zero =>
    intro pos flag
    constructor
    · intro h
      exact Or.inl h
    · rintro (h | ⟨k, hk1, hk0, _⟩)
      · exact h
      · omega
  | succ n ih =>
    intro pos flag
    rw [moveSteps, ih]
    constructor
    · rintro (h | ⟨k, hk1, hkn, hk0⟩)
      · rcases Bool.or_eq_true_iff.mp h with hf | hd
        · exact Or.inl hf
        · refine Or.inr ⟨1, le_refl 1, by omega, ?_⟩
          simpa using of_decide_eq_true hd
      · refine Or.inr ⟨k + 1, by omega, by omega, ?_⟩
        rw [Nat.mod_add_mod] at hk0
        have : pos + 1 + k = pos + (k + 1) := by omega
        rw [this] at hk0
        exact hk0
    · rintro (h | ⟨k, hk1, hkn, hk0⟩)
      · exact Or.inl (by simp [h])
      · cases k with
        | zero => omega
        | succ k =>
          cases k with
          | zero =>
            refine Or.inl (Bool.or_eq_true_iff.mpr (Or.inr ?_))
            exact decide_eq_true (by simpa using hk0)
          | succ k =>
            refine Or.inr ⟨k + 1, by omega, by omega, ?_⟩
            rw [Nat.mod_add_mod]
            have : pos + 1 + (k + 1) = pos + (k + 1 + 1) := by omega
            rw [this]
            exact hk0

theorem passedStart_iff (pos n : Nat) (hpos : pos < 40) :
    (∃ k, 1 ≤ k ∧ k ≤ n ∧ (pos + k) % 40 = 0) ↔ 40 ≤ pos + n := by
  constructor
  · rintro ⟨k, h1, h2, h0⟩
    have hdvd : 40 ∣ pos + k := Nat.dvd_of_mod_eq_zero h0
    have : 40 ≤ pos + k := Nat.le_of_dvd (by omega) hdvd
    omega
  · intro h
    refine ⟨40 - pos, by omega, by omega, ?_⟩
    have : pos + (40 - pos) = 40 := by omega
    rw [this]

theorem wrap_lt_iff (pos n : Nat) (hpos : pos < 40) (hn : n < 40) :
    ((pos + n) % 40 < pos ↔ 40 ≤ pos + n) := by
  omega

theorem nextAliveAux_eq (len : Nat) (bank : List Nat) :
    ∀ (fuel cur k : Nat), 1 ≤ k → k ≤ fuel + 1 →
      ((cur + k) % len ∉ bank) →
      (∀ j, 1 ≤ j → j < k → (cur + j) % len ∈ bank) →
      nextAliveAux len bank cur fuel = (cur + k) % len := by
  intro fuel
  induction fuel with
  | zero =>
    intro cur k h1 h2 h3 h4
    have hk : k = 1 := by omega
    subst hk
    simp [nextAliveAux]
  | succ fuel ih =>
    intro cur k h1 h2 h3 h4
    rw [nextAliveAux]
    by_cases hn : (cur + 1) % len ∈ bank
    · have hk2 : 2 ≤ k := by
        by_contra hc
        have : k = 1 := by omega
        subst this
        exact h3 hn
      simp only [hn, if_true]
      rw [ih ((cur + 1) % len) (k - 1) (by omega) (by omega) ?_ ?_]
      · rw [Nat.mod_add_mod]
        congr 1
        omega
      · rw [Nat.mod_add_mod]
        have : cur + 1 + (k - 1) = cur + k := by omega
        rw [this]
        exact h3
      · intro j hj1 hjk
        rw [Nat.mod_add_mod]
        have : cur + 1 + j = cur + (j + 1) := by omega
        rw [this]
        exact h4 (j + 1) (by omega) (by omega)
    · have hk : k = 1 := by
        by_contra hc
        exact hn (h4 1 (le_refl 1) (by omega))
      subst hk
      simp [hn]

theorem evenBuildOk_iff_pairwise (counts : List Nat) :
    (evenBuildOk counts = true ↔ ∀ y ∈ counts, ∀ z ∈ counts, y ≤ z + 1) := by
  unfold evenBuildOk
  cases hmin : counts.min? with
  | none =>
    have he : counts = [] := List.min?_eq_none_iff.mp hmin
    subst he
    simp
  | some m =>
    have hm := List.min?_eq_some_iff'.mp hmin
    rw [List.all_eq_true]
    constructor
    · intro h y hy z hz
      have h1 := of_decide_eq_true (h y hy)
      have h2 := hm.2 z hz
      omega
    · intro h y hy
      exact decide_eq_true (h y hy m hm.1)

theorem min_cond_iff_evenAfter (board : List Cell) (s : GameState) (cell : Cell)
    (hmem : cell ∈ groupCells board cell)
    (hinv : evenBuildOk (groupCounts board s cell) = true) :
    ((∀ y ∈ groupCounts board s cell, houseCount s cell.id ≤ y)
      ↔ evenBuildOk (groupCountsAfterBuild board s cell) = true) := by
  rw [evenBuildOk_iff_pairwise] at hinv ⊢
  simp only [groupCounts] at hinv ⊢
  simp only [groupCountsAfterBuild]
  constructor
  · intro hmin y hy z hz
    rcases List.mem_map.mp hy with ⟨cy, hcy, rfl⟩
    rcases List.mem_map.mp hz with ⟨cz, hcz, rfl⟩
    have hzge : houseCount s cell.id ≤ houseCount s cz.id :=
      hmin _ (List.mem_map_of_mem _ hcz)
    have hy' : houseCount s cy.id ≤ houseCount s cell.id + 1 :=
      hinv _ (List.mem_map_of_mem _ hcy) _ (List.mem_map_of_mem _ hmem)
    by_cases hcyid : cy.id = cell.id
    · rw [if_pos hcyid, hcyid]
      by_cases hczid : cz.id = cell.id
      · rw [if_pos hczid, hczid]
        omega
      · rw [if_neg hczid]
        omega
    · rw [if_neg hcyid]
      by_cases hczid : cz.id = cell.id
      · rw [if_pos hczid, hczid]
        omega
      · rw [if_neg hczid]
        omega
  · intro hafter y hy
    rcases List.mem_map.mp hy with ⟨cy, hcy, rfl⟩
    by_contra hlt
    push_neg at hlt
    have hne : cy.id ≠ cell.id := by
      intro he
      rw [he] at hlt
      omega
    have h1 : houseCount s cy.id ∈ (groupCells board cell).map
        (fun c => if c.id = cell.id then houseCount s c.id + 1 else houseCount s c.id) :=
      List.mem_map.mpr ⟨cy, hcy, by rw [if_neg hne]⟩
    have h2 : houseCount s cell.id + 1 ∈ (groupCells board cell).map
        (fun c => if c.id = cell.id then houseCount s c.id + 1 else houseCount s c.id) :=
      List.mem_map.mpr ⟨cell, hmem, by rw [if_pos rfl]⟩
    have := hafter _ h2 _ h1
    omega

theorem rollDicePlayersUpdate_effects (s : GameState) (d1 d2 : Nat)
    (h : s.currentPlayer < s.players.length) :
    playerPosition (rollDicePlayersUpdate s d1 d2) s.currentPlayer
        = (moveSteps (d1 + d2) (playerPosition s s.currentPlayer) false).1
    ∧ playerMoney (rollDicePlayersUpdate s d1 d2) s.currentPlayer
        = playerMoney s s.currentPlayer
          + (if (moveSteps (d1 + d2) (playerPosition s s.currentPlayer) false).2
             then 200 else 0) := by
  obtain ⟨p, hp⟩ : ∃ p, s.players.get? s.currentPlayer = some p := by
    cases hg : s.players.get? s.currentPlayer with
    | none =>
      rw [List.get?_eq_none] at hg
      omega
    | some p => exact ⟨p, rfl⟩
  constructor
  · simp only [rollDicePlayersUpdate, playerPosition]
    rw [updAt_get, if_pos rfl]
    simp only [hp]
    simp
  · simp only [rollDicePlayersUpdate, playerPosition, playerMoney]
    rw [updAt_get, if_pos rfl]
    simp only [hp]
    simp

theorem movePlayerToUpdate_effects (s : GameState) (target : Nat) (award : Bool)
    (h : s.currentPlayer < s.players.length) :
    playerPosition (movePlayerToUpdate s target award) s.currentPlayer = target
    ∧ playerMoney (movePlayerToUpdate s target award) s.currentPlayer
        = playerMoney s s.currentPlayer
          + (if award && decide (target < playerPosition s s.currentPlayer)
             then 200 else 0) := by
  obtain ⟨p, hp⟩ : ∃ p, s.players.get? s.currentPlayer = some p := by
    cases hg : s.players.get? s.currentPlayer with
    | none =>
      rw [List.get?_eq_none] at hg
      omega
    | some p => exact ⟨p, rfl⟩
  constructor
  · simp only [movePlayerToUpdate, playerPosition]
    rw [updAt_get, if_pos rfl]
    simp only [hp]
    simp
  · simp only [movePlayerToUpdate, playerPosition, playerMoney]
    rw [updAt_get, if_pos rfl]
    simp only [hp]
    simp

/-! The claims. -/

/-- C10: calling `sellHouse(cellId, playerId, refund)` when the player owns the
cell but its house count is 0 leaves the houses map unchanged and still
credits the refund — the cash credit is conditioned on ownership only, not on
a house actually being removed. -/
theorem sellHouse_credits_refund_at_zero_houses (s : GameState) (cellId pid : Nat)
    (refund : Int)
    (hown : lookupKey s.ownership cellId = some pid)
    (hzero : houseCount s cellId = 0)
    (hpid : pid < s.players.length) :
    (sellHouse s cellId pid refund).houses = s.houses
    ∧ playerMoney (sellHouse s cellId pid refund) pid = playerMoney s pid + refund := by
  have hc : ¬(lookupKey s.ownership cellId ≠ some pid) := by simp [hown]
  unfold sellHouse
  rw [if_neg hc, hzero]
  exact ⟨rfl, playerMoney_updateMoney_self s pid refund hpid⟩

/-- C10 witness: player 0 owns cell 4 with no houses; selling with refund 25
(half of the 50 house cost) changes no house entry yet pays 25. -/
theorem sellHouse_credits_refund_at_zero_houses_witness :
    lookupKey exSellState.ownership 4 = some 0
    ∧ houseCount exSellState 4 = 0
    ∧ 0 < exSellState.players.length
    ∧ ((sellHouse exSellState 4 0 25).houses = exSellState.houses
       ∧ playerMoney (sellHouse exSellState 4 0 25) 0 = playerMoney exSellState 0 + 25) :=
  ⟨by decide, by decide, by decide,
    sellHouse_credits_refund_at_zero_houses exSellState 4 0 25 (by decide) (by decide)
      (by decide)⟩

/-- C4: evaluated at the failing input, `unmortgageProperty` clears the
mortgaged flag of cell 3 even though the player's 50 cash is below the
unmortgage price 110 and no debit happens — the claim's requirement that an
unaffordable unmortgage change nothing is violated by the code. -/
theorem unmortgage_clears_flag_without_debit :
    playerMoney bugUnmortgageState 0 < (unmortgageCost 100 : Int)
    ∧ lookupKey bugUnmortgageState.mortgaged 3 = some true
    ∧ lookupKey (unmortgageProperty bugUnmortgageState 3 0 (unmortgageCost 100)).mortgaged 3
        = some false
    ∧ playerMoney (unmortgageProperty bugUnmortgageState 3 0 (unmortgageCost 100)) 0
        = playerMoney bugUnmortgageState 0 := by
  decide

/-- C2 counterexample: with 0 cash and a 100-priced cell pending, `buyProperty`
still transfers ownership and debits into negative money, contradicting the
claim that a purchase with cash ≤ price is rejected with no state change. -/
theorem buyProperty_ignores_cash_cex :
    playerMoney cexBuyState 0 ≤ buyCell.price
    ∧ lookupKey cexBuyState.ownership 3 = none
    ∧ lookupKey (buyProperty cexBuyState).ownership 3 = some 0
    ∧ playerMoney (buyProperty cexBuyState) 0 = -100 := by
  decide

/-- C2 amended: whenever a purchase decision is pending, `buyProperty`
transfers ownership of the pending cell to the active player and debits the
full price unconditionally — no cash-versus-price comparison is made, and the
player's money may go negative; with no pending decision it is a no-op. -/
theorem buyProperty_unconditional (s : GameState) (cell : Cell)
    (hcell : s.activeCell = some cell)
    (hcur : s.currentPlayer < s.players.length) :
    lookupKey (buyProperty s).ownership cell.id = some s.currentPlayer
    ∧ playerMoney (buyProperty s) s.currentPlayer
        = playerMoney s s.currentPlayer - cell.price
    ∧ (buyProperty s).activeCell = none := by
  unfold buyProperty
  rw [hcell]
  refine ⟨?_, ?_, rfl⟩
  · show lookupKey (objInsert s.ownership cell.id s.currentPlayer) cell.id
      = some s.currentPlayer
    rw [lookupKey_objInsert, if_pos rfl]
  · have hm := playerMoney_updateMoney_self
      { s with ownership := objInsert s.ownership cell.id s.currentPlayer }
      s.currentPlayer (-cell.price) hcur
    show playerMoney (updateMoney { s with
        ownership := objInsert s.ownership cell.id s.currentPlayer }
          s.currentPlayer (-cell.price)) s.currentPlayer
      = playerMoney s s.currentPlayer - cell.price
    rw [hm]
    have hsame : playerMoney { s with
        ownership := objInsert s.ownership cell.id s.currentPlayer } s.currentPlayer
      = playerMoney s s.currentPlayer := rfl
    rw [hsame]
    omega

/-- C2 amended witness: the pending purchase of `buyCell` by a player holding
500 goes through, leaving ownership at player 0 and money 400. -/
theorem buyProperty_unconditional_witness :
    exBuyState.activeCell = some buyCell
    ∧ 0 < exBuyState.players.length
    ∧ (lookupKey (buyProperty exBuyState).ownership buyCell.id
          = some exBuyState.currentPlayer
       ∧ playerMoney (buyProperty exBuyState) exBuyState.currentPlayer
          = playerMoney exBuyState exBuyState.currentPlayer - buyCell.price
       ∧ (buyProperty exBuyState).activeCell = none) :=
  ⟨rfl, by decide, buyProperty_unconditional exBuyState buyCell rfl (by decide)⟩

/-- C3 amended: after `declareBankruptcy(p)` no cell maps to `p` in the
ownership map, every cell `p` owned loses its mortgage and house entries, and
`p` joins the bankrupt set — but the player roster (money included) is left
unchanged: cash is not zeroed. -/
theorem declareBankruptcy_spec (s : GameState) (pid : Nat) :
    (∀ c, lookupKey (declareBankruptcy s pid).ownership c ≠ some pid)
    ∧ (∀ c, lookupKey s.ownership c = some pid →
        lookupKey (declareBankruptcy s pid).mortgaged c = none
        ∧ lookupKey (declareBankruptcy s pid).houses c = none)
    ∧ pid ∈ (declareBankruptcy s pid).bankruptPlayers
    ∧ (declareBankruptcy s pid).players = s.players := by
  refine ⟨?_, ?_, ?_, rfl⟩
  · intro c
    exact lookupKey_filter_valNe _ _ _
  · intro c hc
    constructor
    · exact lookupKey_filter_keyPred s.mortgaged
        (fun k => decide (lookupKey s.ownership k ≠ some pid)) c (by simp [hc])
    · exact lookupKey_filter_keyPred s.houses
        (fun k => decide (lookupKey s.ownership k ≠ some pid)) c (by simp [hc])
  · show pid ∈ (if pid ∈ s.bankruptPlayers then s.bankruptPlayers
      else s.bankruptPlayers ++ [pid])
    by_cases h : pid ∈ s.bankruptPlayers
    · rw [if_pos h]
      exact h
    · rw [if_neg h]
      simp

/-- C3 counterexample: a player with 500 cash declares bankruptcy and keeps the
500 — the claim's `p.cash = 0` is false on the code, even though the player is
marked bankrupt and stripped of assets. -/
theorem declareBankruptcy_cash_not_zeroed_cex :
    playerMoney (declareBankruptcy cexBankState 0) 0 = 500
    ∧ playerMoney (declareBankruptcy cexBankState 0) 0 ≠ 0
    ∧ 0 ∈ (declareBankruptcy cexBankState 0).bankruptPlayers := by
  decide

theorem tradeCash_players_length (x : GameState) (a b : Nat) (amt : Int) :
    (tradeCash x a b amt).players.length = x.players.length := by
  unfold tradeCash
  split_ifs
  · rw [updateMoney_players_length, updateMoney_players_length]
  · rfl

theorem tradeCash_ownership (x : GameState) (a b : Nat) (amt : Int) :
    (tradeCash x a b amt).ownership = x.ownership := by
  unfold tradeCash
  split_ifs <;> rfl

theorem tradeCash_effects (x : GameState) (a b : Nat) (amt : Int) (hab : a ≠ b)
    (ha : a < x.players.length) (hb : b < x.players.length) (hnn : 0 ≤ amt) :
    playerMoney (tradeCash x a b amt) a = playerMoney x a - amt
    ∧ playerMoney (tradeCash x a b amt) b = playerMoney x b + amt := by
  unfold tradeCash
  split_ifs with h
  · constructor
    · rw [playerMoney_updateMoney_other _ _ _ _ (Ne.symm hab)]
      rw [playerMoney_updateMoney_self _ _ _ ha]
      omega
    · have hb' : b < (updateMoney x a (-amt)).players.length := by
        rw [updateMoney_players_length]
        exact hb
      rw [playerMoney_updateMoney_self _ _ _ hb']
      rw [playerMoney_updateMoney_other _ _ _ _ hab]
  · have h0 : amt = 0 := by omega
    subst h0
    constructor <;> omega

/-- C1 counterexample: a pending offer whose proposer cannot fund the cash leg
(0 cash, giveMoney 100) is still applied in full on acceptance, driving the
proposer to -100 — the claim that an invalid leg leaves both players' state
unchanged is false on the code. -/
theorem applyTrade_no_validity_check_cex :
    playerMoney cexTradeState cexTrade.fromPlayer < cexTrade.offer.giveMoney
    ∧ playerMoney (applyTrade cexTradeState cexTrade) cexTrade.fromPlayer = -100
    ∧ playerMoney cexTradeState cexTrade.fromPlayer = 0 := by
  decide

/-- C1 amended: acceptance applies both legs unconditionally and atomically —
every `takeProperties` cell ends at the proposer, every `giveProperties` cell
(not also listed in take) at the recipient, both cash deltas apply, and the
pending trade clears; no validity check happens at acceptance time, so stale
or underfunded offers apply in full rather than being rejected. -/
theorem applyTrade_applies_both_legs_unconditionally (s : GameState) (t : Trade)
    (hft : t.fromPlayer ≠ t.toPlayer)
    (hf : t.fromPlayer < s.players.length)
    (ht : t.toPlayer < s.players.length)
    (hg : 0 ≤ t.offer.giveMoney)
    (hk : 0 ≤ t.offer.takeMoney) :
    (∀ c ∈ t.offer.takeProperties,
        lookupKey (applyTrade s t).ownership c = some t.fromPlayer)
    ∧ (∀ c ∈ t.offer.giveProperties, c ∉ t.offer.takeProperties →
        lookupKey (applyTrade s t).ownership c = some t.toPlayer)
    ∧ playerMoney (applyTrade s t) t.fromPlayer
        = playerMoney s t.fromPlayer - t.offer.giveMoney + t.offer.takeMoney
    ∧ playerMoney (applyTrade s t) t.toPlayer
        = playerMoney s t.toPlayer + t.offer.giveMoney - t.offer.takeMoney
    ∧ (applyTrade s t).pendingTrade = none := by
  have hred : applyTrade s t
      = { tradeCash
            (tradeCash { s with ownership := tradeOwnership s.ownership t }
              t.fromPlayer t.toPlayer t.offer.giveMoney)
            t.toPlayer t.fromPlayer t.offer.takeMoney
          with pendingTrade := none } := rfl
  have hownEq : (applyTrade s t).ownership = tradeOwnership s.ownership t := by
    rw [hred]
    show (tradeCash (tradeCash _ _ _ _) _ _ _).ownership = _
    rw [tradeCash_ownership, tradeCash_ownership]
  have hlookup : ∀ c, lookupKey (tradeOwnership s.ownership t) c
      = if c ∈ t.offer.takeProperties then some t.fromPlayer
        else if c ∈ t.offer.giveProperties then some t.toPlayer
        else lookupKey s.ownership c := by
    intro c
    unfold tradeOwnership
    rw [lookupKey_foldl_objInsert, lookupKey_foldl_objInsert]
  have h1 := tradeCash_effects { s with ownership := tradeOwnership s.ownership t }
    t.fromPlayer t.toPlayer t.offer.giveMoney hft hf ht hg
  have hlen2 : t.toPlayer < (tradeCash { s with ownership := tradeOwnership s.ownership t }
      t.fromPlayer t.toPlayer t.offer.giveMoney).players.length := by
    rw [tradeCash_players_length]
    exact ht
  have hlen2' : t.fromPlayer < (tradeCash { s with ownership := tradeOwnership s.ownership t }
      t.fromPlayer t.toPlayer t.offer.giveMoney).players.length := by
    rw [tradeCash_players_length]
    exact hf
  have h2 := tradeCash_effects
    (tradeCash { s with ownership := tradeOwnership s.ownership t }
      t.fromPlayer t.toPlayer t.offer.giveMoney)
    t.toPlayer t.fromPlayer t.offer.takeMoney (Ne.symm hft) hlen2 hlen2' hk
  refine ⟨?_, ?_, ?_, ?_, by rw [hred]⟩
  · intro c hc
    rw [hownEq, hlookup, if_pos hc]
  · intro c hcg hcnt
    rw [hownEq, hlookup, if_neg hcnt, if_pos hcg]
  · have e1 : playerMoney (applyTrade s t) t.fromPlayer
        = playerMoney (tradeCash
            (tradeCash { s with ownership := tradeOwnership s.ownership t }
              t.fromPlayer t.toPlayer t.offer.giveMoney)
            t.toPlayer t.fromPlayer t.offer.takeMoney) t.fromPlayer := by
      rw [hred]
      rfl
    rw [e1, h2.2, h1.1]
    have e0 : playerMoney { s with ownership := tradeOwnership s.ownership t } t.fromPlayer
        = playerMoney s t.fromPlayer := rfl
    rw [e0]
  · have e1 : playerMoney (applyTrade s t) t.toPlayer
        = playerMoney (tradeCash
            (tradeCash { s with ownership := tradeOwnership s.ownership t }
              t.fromPlayer t.toPlayer t.offer.giveMoney)
            t.toPlayer t.fromPlayer t.offer.takeMoney) t.toPlayer := by
      rw [hred]
      rfl
    rw [e1, h2.1, h1.2]
    have e0 : playerMoney { s with ownership := tradeOwnership s.ownership t } t.toPlayer
        = playerMoney s t.toPlayer := rfl
    rw [e0]

/-- C1 amended witness: a trade of cell 5 plus 30 gold against cell 7 plus 10
gold between players 0 and 1 applies both legs and clears the pending offer. -/
theorem applyTrade_applies_both_legs_unconditionally_witness :
    exTrade.fromPlayer ≠ exTrade.toPlayer
    ∧ ((∀ c ∈ exTrade.offer.takeProperties,
          lookupKey (applyTrade exTradeState exTrade).ownership c
            = some exTrade.fromPlayer)
       ∧ (∀ c ∈ exTrade.offer.giveProperties, c ∉ exTrade.offer.takeProperties →
          lookupKey (applyTrade exTradeState exTrade).ownership c
            = some exTrade.toPlayer)
       ∧ playerMoney (applyTrade exTradeState exTrade) exTrade.fromPlayer
          = playerMoney exTradeState exTrade.fromPlayer
            - exTrade.offer.giveMoney + exTrade.offer.takeMoney
       ∧ playerMoney (applyTrade exTradeState exTrade) exTrade.toPlayer
          = playerMoney exTradeState exTrade.toPlayer
            + exTrade.offer.giveMoney - exTrade.offer.takeMoney
       ∧ (applyTrade exTradeState exTrade).pendingTrade = none) :=
  ⟨by decide,
    applyTrade_applies_both_legs_unconditionally exTradeState exTrade (by decide)
      (by decide) (by decide) (by decide) (by decide)⟩

/-- C8 counterexample: with a roll taken and an unresolved offer pending,
`endTurn` advances the turn but leaves `pendingTrade` exactly as it was — the
claim that it clears any unresolved pending trade offer is false on the code. -/
theorem endTurn_keeps_pending_trade_cex :
    cexEndState.hasRolled = true
    ∧ cexEndState.pendingTrade = some cexEndTrade
    ∧ (endTurn cexEndState).pendingTrade = some cexEndTrade
    ∧ (endTurn cexEndState).currentPlayer = 2 := by
  decide

/-- C8 amended: `endTurn` is a no-op unless a roll happened this turn; when it
runs it advances `currentPlayer` to the first non-bankrupt roster index after
the current one in cyclic order and resets the rolled flag, while the pending
trade offer (and the rest of the state) is left unchanged, not cleared. -/
theorem endTurn_spec (s : GameState) (k : Nat)
    (hk1 : 1 ≤ k) (hk2 : k ≤ s.players.length)
    (halive : (s.currentPlayer + k) % s.players.length ∉ s.bankruptPlayers)
    (hmin : ∀ j, 1 ≤ j → j < k →
      (s.currentPlayer + j) % s.players.length ∈ s.bankruptPlayers) :
    (s.hasRolled = false → endTurn s = s)
    ∧ (s.hasRolled = true →
        (endTurn s).currentPlayer = (s.currentPlayer + k) % s.players.length
        ∧ (endTurn s).currentPlayer ∉ s.bankruptPlayers
        ∧ (endTurn s).hasRolled = false
        ∧ (endTurn s).pendingTrade = s.pendingTrade
        ∧ (endTurn s).players = s.players
        ∧ (endTurn s).ownership = s.ownership) := by
  constructor
  · intro h
    unfold endTurn
    rw [if_pos h]
  · intro h
    have hnext := nextAliveAux_eq s.players.length s.bankruptPlayers s.players.length
      s.currentPlayer k hk1 (by omega) halive hmin
    have hred : endTurn s
        = { s with
            hasRolled := false
            currentPlayer := (nextAliveAux s.players.length s.bankruptPlayers
              s.currentPlayer s.players.length) } := by
      unfold endTurn
      rw [if_neg (by simp [h])]
    rw [hred]
    refine ⟨hnext, ?_, rfl, rfl, rfl, rfl⟩
    show nextAliveAux s.players.length s.bankruptPlayers s.currentPlayer
        s.players.length ∉ s.bankruptPlayers
    rw [hnext]
    exact halive

/-- C8 amended witness: from player 0 with player 1 bankrupt in a roster of 3,
`endTurn` lands on player 2, resets the flag, and keeps the pending trade. -/
theorem endTurn_spec_witness :
    (endTurn cexEndState).currentPlayer
        = (cexEndState.currentPlayer + 2) % cexEndState.players.length
    ∧ (endTurn cexEndState).hasRolled = false
    ∧ (endTurn cexEndState).pendingTrade = cexEndState.pendingTrade := by
  have h := endTurn_spec cexEndState 2 (by decide) (by decide) (by decide)
    (by
      intro j h1 h2
      have hj : j = 1 := by omega
      subst hj
      decide)
  obtain ⟨h1, h2, h3, h4, h5, h6⟩ := h.2 rfl
  exact ⟨h1, h3, h4⟩

/-- C5: for any start position below 40 and dice in 1..6, the roll interval
ends at `(position + d1 + d2) % 40`, credits exactly 200 exactly when the new
position is numerically below the old one (equivalently, when the walk passed
the start cell), and `rollDice` feeds that updated state into landing
resolution before setting the rolled flag. -/
theorem rollDice_move_spec (board : List Cell) (cards : List ChanceCard)
    (s : GameState) (d1 d2 : Nat)
    (hpos : playerPosition s s.currentPlayer < 40)
    (hd1 : 1 ≤ d1) (hd1' : d1 ≤ 6) (hd2 : 1 ≤ d2) (hd2' : d2 ≤ 6)
    (hcur : s.currentPlayer < s.players.length)
    (hjail : playerInJail s s.currentPlayer = false)
    (hroll : s.hasRolled = false)
    (hne : s.players ≠ []) :
    playerPosition (rollDicePlayersUpdate s d1 d2) s.currentPlayer
        = (playerPosition s s.currentPlayer + (d1 + d2)) % 40
    ∧ playerMoney (rollDicePlayersUpdate s d1 d2) s.currentPlayer
        = playerMoney s s.currentPlayer
          + (if (playerPosition s s.currentPlayer + (d1 + d2)) % 40
                < playerPosition s s.currentPlayer then 200 else 0)
    ∧ ((playerPosition s s.currentPlayer + (d1 + d2)) % 40
          < playerPosition s s.currentPlayer
        ↔ 40 ≤ playerPosition s s.currentPlayer + (d1 + d2))
    ∧ rollDice board cards s d1 d2
        = { handleCellAction board cards
              (rollDicePlayersUpdate { s with dice := (d1, d2) } d1 d2)
              (getCellAt board ((playerPosition s s.currentPlayer + (d1 + d2)) % 40))
            with hasRolled := true } := by
  obtain ⟨hp, hm⟩ := rollDicePlayersUpdate_effects s d1 d2 hcur
  have hfst := moveSteps_fst (d1 + d2) (playerPosition s s.currentPlayer) false hpos
  have hflag : ((moveSteps (d1 + d2) (playerPosition s s.currentPlayer) false).2 = true
      ↔ 40 ≤ playerPosition s s.currentPlayer + (d1 + d2)) := by
    rw [moveSteps_snd]
    rw [← passedStart_iff (playerPosition s s.currentPlayer) (d1 + d2) hpos]
    simp
  have hwrap := wrap_lt_iff (playerPosition s s.currentPlayer) (d1 + d2) hpos (by omega)
  have hcond : (if (moveSteps (d1 + d2) (playerPosition s s.currentPlayer) false).2
        then (200 : Int) else 0)
      = (if (playerPosition s s.currentPlayer + (d1 + d2)) % 40
            < playerPosition s s.currentPlayer then (200 : Int) else 0) := by
    by_cases hlt : (playerPosition s s.currentPlayer + (d1 + d2)) % 40
        < playerPosition s s.currentPlayer
    · rw [if_pos hlt, if_pos (hflag.mpr (hwrap.mp hlt))]
    · rw [if_neg hlt]
      have : (moveSteps (d1 + d2) (playerPosition s s.currentPlayer) false).2 = false := by
        rw [← Bool.not_eq_true, hflag, ← hwrap]
        exact hlt
      rw [this]
      rfl
  refine ⟨by rw [hp, hfst], by rw [hm, hcond], hwrap, ?_⟩
  have hred : rollDice board cards s d1 d2
      = { handleCellAction board cards
            (rollDicePlayersUpdate { s with dice := (d1, d2) } d1 d2)
            (getCellAt board
              ((moveSteps (d1 + d2) (playerPosition s s.currentPlayer) false).1))
          with hasRolled := true } := by
    unfold rollDice
    rw [if_neg (by simp [hjail]), if_neg (by simp [hroll]),
      if_neg (by simp [List.isEmpty_iff, hne])]
  rw [hred, hfst]

/-- C5 witness: from position 35 a roll of 3+4 lands on 2 and pays the 200
pass-start bonus exactly once. -/
theorem rollDice_move_spec_witness :
    playerPosition (rollDicePlayersUpdate exRollState 3 4) 0 = 2
    ∧ playerMoney (rollDicePlayersUpdate exRollState 3 4) 0
        = playerMoney exRollState 0 + 200 := by
  have h := rollDice_move_spec [] [] exRollState 3 4 (by decide) (by decide) (by decide)
    (by decide) (by decide) (by decide) (by decide) (by decide) (by decide)
  refine ⟨?_, ?_⟩
  · have := h.1
    simpa using this
  · have := h.2.1
    simpa using this

/-- C6: landing on an unmortgaged street owned by another player transfers
exactly `rentTable[min(housesBuilt, 5)]` from the lander to the owner; the
rent computation reads only the cell's table and its house count, never the
color-group ownership, so no monopoly doubling occurs. -/
theorem street_rent_transfer (board : List Cell) (cards : List ChanceCard)
    (s : GameState) (cell : Cell) (o : Nat)
    (htype : cell.type = CellType.property)
    (hown : lookupKey s.ownership cell.id = some o)
    (hmort : isMortgaged s cell.id = false)
    (hne : o ≠ s.currentPlayer)
    (hcur : s.currentPlayer < s.players.length)
    (ho : o < s.players.length)
    (hlen : cell.rent.length = 6) :
    playerMoney (handleCellAction board cards s (some cell)) s.currentPlayer
        = playerMoney s s.currentPlayer
          - (cell.rent.getD (min (houseCount s cell.id) 5) 0 : Int)
    ∧ playerMoney (handleCellAction board cards s (some cell)) o
        = playerMoney s o + (cell.rent.getD (min (houseCount s cell.id) 5) 0 : Int) := by
  have h5 : cell.rent.length - 1 = 5 := by omega
  have hred : handleCellAction board cards s (some cell)
      = (if 0 < cell.rent.getD (min (houseCount s cell.id) 5) 0 then
          updateMoney (updateMoney s s.currentPlayer
              (-(cell.rent.getD (min (houseCount s cell.id) 5) 0 : Int)))
            o (cell.rent.getD (min (houseCount s cell.id) 5) 0 : Int)
        else s) := by
    show (if cell.type = CellType.gotoJail then sendToJail s s.currentPlayer 10
      else if cell.type = CellType.property ∨ cell.type = CellType.railroad
          ∨ cell.type = CellType.utility then
        match lookupKey s.ownership cell.id with
        | none => { s with activeCell := some cell }
        | some owner =>
          if isMortgaged s cell.id then s
          else if owner ≠ s.currentPlayer then
            let rent : Nat :=
              if cell.type = CellType.property then
                cell.rent.getD (min (houseCount s cell.id) (cell.rent.length - 1)) 0
              else if cell.type = CellType.railroad then
                let ownedRails := countUnmortgagedOfType board s owner CellType.railroad
                if 0 < ownedRails then cell.rent.getD (ownedRails - 1) 0 else 0
              else
                let ownedUtilities := countUnmortgagedOfType board s owner CellType.utility
                let diceTotal := s.dice.1 + s.dice.2
                diceTotal * (if ownedUtilities = 2 then cell.rentMultiplierTwo
                             else cell.rentMultiplierOne)
            if 0 < rent then
              updateMoney (updateMoney s s.currentPlayer (-(rent : Int))) owner (rent : Int)
            else s
          else s
      else if cell.type = CellType.chance then drawChance cards s
      else if cell.type = CellType.tax then updateMoney s s.currentPlayer (-cell.amount)
      else s) = _
    rw [if_neg (by simp [htype]), if_pos (Or.inl htype)]
    simp only [hown]
    rw [if_neg (by simp [hmort]), if_pos hne, if_pos htype, h5]
  rw [hred]
  by_cases hr : 0 < cell.rent.getD (min (houseCount s cell.id) 5) 0
  · rw [if_pos hr]
    constructor
    · rw [playerMoney_updateMoney_other _ _ _ _ hne,
        playerMoney_updateMoney_self _ _ _ hcur]
      omega
    · have ho' : o < (updateMoney s s.currentPlayer
          (-(cell.rent.getD (min (houseCount s cell.id) 5) 0 : Int))).players.length := by
        rw [updateMoney_players_length]
        exact ho
      rw [playerMoney_updateMoney_self _ _ _ ho',
        playerMoney_updateMoney_other _ _ _ _ (Ne.symm hne)]
  · rw [if_neg hr]
    have h0 : cell.rent.getD (min (houseCount s cell.id) 5) 0 = 0 := by omega
    rw [h0]
    constructor <;> simp

/-- C6 witness: with rent table [2, 10, 30, 90, 160, 250] and 0 houses the
transfer is the base rent 2, while the owner holds the whole color group —
matching the spec's no-doubling example. -/
theorem street_rent_transfer_witness :
    playerMoney (handleCellAction [] [] exRentState (some rentCell)) 0
        = playerMoney exRentState 0 - 2
    ∧ playerMoney (handleCellAction [] [] exRentState (some rentCell)) 1
        = playerMoney exRentState 1 + 2 := by
  have h := street_rent_transfer [] [] exRentState rentCell 1 (by decide) (by decide)
    (by decide) (by decide) (by decide) (by decide) (by decide)
  refine ⟨?_, ?_⟩
  · have := h.1
    simpa using this
  · have := h.2
    simpa using this

/-- C9: a chance card with effect {move, steps} relocates the drawer to
`(position + steps + 40) mod 40` (then resolves the landed cell), and the
relocation update credits 200 exactly when the new index is numerically below
the old one — so the backward-move card (steps = -2) pays the pass-start bonus
from every position ≥ 2 although the player never passed Start. -/
theorem applyChance_move_spec (board : List Cell) (cards : List ChanceCard)
    (s : GameState) (steps : Int) (card : ChanceCard)
    (hcard : card.effect = ChanceEffect.move steps)
    (hpos : playerPosition s s.currentPlayer < 40)
    (hsteps : -40 ≤ steps)
    (hcur : s.currentPlayer < s.players.length) :
    (((Int.tmod ((playerPosition s s.currentPlayer : Int) + steps + 40) 40).toNat : Int)
        = ((playerPosition s s.currentPlayer : Int) + steps + 40) % 40)
    ∧ applyChance board cards s card
        = { movePlayerTo board cards s
              ((Int.tmod ((playerPosition s s.currentPlayer : Int) + steps + 40) 40).toNat)
              true with chanceCard := none }
    ∧ playerPosition (movePlayerToUpdate s
          ((Int.tmod ((playerPosition s s.currentPlayer : Int) + steps + 40) 40).toNat)
          true) s.currentPlayer
        = (Int.tmod ((playerPosition s s.currentPlayer : Int) + steps + 40) 40).toNat
    ∧ playerMoney (movePlayerToUpdate s
          ((Int.tmod ((playerPosition s s.currentPlayer : Int) + steps + 40) 40).toNat)
          true) s.currentPlayer
        = playerMoney s s.currentPlayer
          + (if (Int.tmod ((playerPosition s s.currentPlayer : Int) + steps + 40) 40).toNat
                < playerPosition s s.currentPlayer then 200 else 0)
    ∧ (steps = -2 → 2 ≤ playerPosition s s.currentPlayer →
        (Int.tmod ((playerPosition s s.currentPlayer : Int) + steps + 40) 40).toNat
            = playerPosition s s.currentPlayer - 2
        ∧ (Int.tmod ((playerPosition s s.currentPlayer : Int) + steps + 40) 40).toNat
            < playerPosition s s.currentPlayer) := by
  have hk : ((playerPosition s s.currentPlayer : Int) + steps + 40)
      = (((playerPosition s s.currentPlayer + (steps + 40).toNat : Nat)) : Int) := by
    omega
  have htm : (Int.tmod ((playerPosition s s.currentPlayer : Int) + steps + 40) 40).toNat
      = (playerPosition s s.currentPlayer + (steps + 40).toNat) % 40 := by
    rw [hk]
    rfl
  obtain ⟨hpEff, hmEff⟩ := movePlayerToUpdate_effects s
    ((Int.tmod ((playerPosition s s.currentPlayer : Int) + steps + 40) 40).toNat) true hcur
  refine ⟨?_, ?_, hpEff, ?_, ?_⟩
  · rw [htm, hk]
    omega
  · simp only [applyChance, hcard]
  · rw [hmEff]
    congr 1
    by_cases hlt : (Int.tmod ((playerPosition s s.currentPlayer : Int) + steps + 40) 40).toNat
        < playerPosition s s.currentPlayer
    · rw [if_pos hlt, if_pos (by simp [hlt])]
    · rw [if_neg hlt, if_neg (by simp [hlt])]
  · intro he h2
    subst he
    rw [htm]
    constructor
    · omega
    · omega

/-- C9 witness: drawing "go back 2 spaces" at position 5 relocates to 3 (a
lower index than 5, though Start was never passed) and the relocation update
pays the 200 bonus. -/
theorem applyChance_move_spec_witness :
    ((Int.tmod ((playerPosition exChanceState exChanceState.currentPlayer : Int)
        + (-2) + 40) 40).toNat = 3)
    ∧ playerPosition (movePlayerToUpdate exChanceState
          ((Int.tmod ((playerPosition exChanceState exChanceState.currentPlayer : Int)
            + (-2) + 40) 40).toNat) true) exChanceState.currentPlayer
        = (Int.tmod ((playerPosition exChanceState exChanceState.currentPlayer : Int)
            + (-2) + 40) 40).toNat
    ∧ ((Int.tmod ((playerPosition exChanceState exChanceState.currentPlayer : Int)
            + (-2) + 40) 40).toNat
          = playerPosition exChanceState exChanceState.currentPlayer - 2
        ∧ (Int.tmod ((playerPosition exChanceState exChanceState.currentPlayer : Int)
            + (-2) + 40) 40).toNat
          < playerPosition exChanceState exChanceState.currentPlayer)
    ∧ playerMoney (movePlayerToUpdate exChanceState
          ((Int.tmod ((playerPosition exChanceState exChanceState.currentPlayer : Int)
            + (-2) + 40) 40).toNat) true) exChanceState.currentPlayer
        = playerMoney exChanceState exChanceState.currentPlayer
          + (if (Int.tmod ((playerPosition exChanceState exChanceState.currentPlayer : Int)
                + (-2) + 40) 40).toNat
                < playerPosition exChanceState exChanceState.currentPlayer
             then 200 else 0) := by
  have h := applyChance_move_spec [] [] exChanceState (-2) backCard rfl (by decide)
    (by decide) (by decide)
  exact ⟨by decide, h.2.2.1, h.2.2.2.2 rfl (by decide), h.2.2.2.1⟩

/-- C7: on a state satisfying the group's even-build invariant, the build
command (asset-modal gating, then `canBuildHere`, then `buildHouse`) goes
through exactly under the claim's conditions — full color group owned, cell
unmortgaged, house count below 5, even-build invariant still holding after
the increment, and house cost affordable — in which case it debits the house
cost and increments the cell's count by one; under any other condition it
changes nothing. -/
theorem buildCommand_spec (board : List Cell) (s : GameState) (cellId : Nat)
    (cell : Cell)
    (hget : getCellAt board cellId = some cell)
    (hid : cell.id = cellId)
    (htype : cell.type = CellType.property)
    (hcur : s.currentPlayer < s.players.length)
    (hinv : evenBuildOk (groupCounts board s cell) = true) :
    (specBuildLegal board s cell = true →
        playerMoney (buildCommand board s cellId) s.currentPlayer
            = playerMoney s s.currentPlayer - cell.houseCost
        ∧ houseCount (buildCommand board s cellId) cellId = houseCount s cellId + 1)
    ∧ (specBuildLegal board s cell = false → buildCommand board s cellId = s) := by
  have hmemB : cell ∈ board := List.get?_mem hget
  have hmemG : cell ∈ groupCells board cell := by
    unfold groupCells
    exact List.mem_filter.mpr ⟨hmemB, by simp [htype]⟩
  have hcnt : houseCount s cell.id ∈ groupCounts board s cell := by
    unfold groupCounts
    exact List.mem_map_of_mem _ hmemG
  obtain ⟨m, hminEq⟩ : ∃ m, (groupCounts board s cell).min? = some m := by
    cases hm : (groupCounts board s cell).min? with
    | none =>
      rw [List.min?_eq_none_iff] at hm
      rw [hm] at hcnt
      cases hcnt
    | some m => exact ⟨m, rfl⟩
  have hmProps := List.min?_eq_some_iff'.mp hminEq
  have hminIff : (houseCount s cell.id = m
      ↔ ∀ y ∈ groupCounts board s cell, houseCount s cell.id ≤ y) := by
    constructor
    · intro he y hy
      rw [he]
      exact hmProps.2 y hy
    · intro hall
      have h1 := hmProps.2 _ hcnt
      have h2 := hall m hmProps.1
      omega
  have hEvenIff := min_cond_iff_evenAfter board s cell hmemG hinv
  have hcb1 : ownsFullColorSet board s cell = true →
      (canBuildHere board s cell = true ↔ houseCount s cell.id = m) := by
    intro ho
    unfold canBuildHere
    rw [if_neg (by simp [ho])]
    simp only [hminEq]
    simp
  have hmatch : buildCommand board s cellId
      = (if cell.type = CellType.property
            ∧ ownsFullColorSet board s cell = true
            ∧ isMortgaged s cell.id = false
            ∧ ¬ (playerMoney s s.currentPlayer < cell.houseCost)
            ∧ houseCount s cell.id < 5 then
          if canBuildHere board s cell then
            buildHouse s cellId s.currentPlayer cell.houseCost
          else s
        else s) := by
    unfold buildCommand
    simp only [hget]
  by_cases hleg : specBuildLegal board s cell = true
  · have hcomp := hleg
    simp only [specBuildLegal, Bool.and_eq_true, Bool.not_eq_true',
      decide_eq_true_eq] at hcomp
    obtain ⟨⟨⟨⟨howns, hmort⟩, hlt5⟩, hafter⟩, hcost⟩ := hcomp
    have hcb : canBuildHere board s cell = true :=
      (hcb1 howns).mpr (hminIff.mpr (hEvenIff.mpr hafter))
    have hbig : cell.type = CellType.property
        ∧ ownsFullColorSet board s cell = true
        ∧ isMortgaged s cell.id = false
        ∧ ¬ (playerMoney s s.currentPlayer < cell.houseCost)
        ∧ houseCount s cell.id < 5 := ⟨htype, howns, hmort, by omega, hlt5⟩
    have hne5 : ¬ (5 ≤ houseCount s cellId) := by
      rw [← hid]
      omega
    have hnc : ¬ (playerMoney s s.currentPlayer < cell.houseCost) := by omega
    have heq : buildHouse s cellId s.currentPlayer cell.houseCost
        = { updateMoney s s.currentPlayer (-cell.houseCost) with
            houses := objInsert s.houses cellId (houseCount s cellId + 1) } := by
      show (if 5 ≤ houseCount s cellId then s
        else if playerMoney s s.currentPlayer < cell.houseCost then s
        else { updateMoney s s.currentPlayer (-cell.houseCost) with
               houses := objInsert s.houses cellId (houseCount s cellId + 1) }) = _
      rw [if_neg hne5, if_neg hnc]
    constructor
    · intro _
      rw [hmatch, if_pos hbig, if_pos hcb, heq]
      constructor
      · have e0 : playerMoney { updateMoney s s.currentPlayer (-cell.houseCost) with
            houses := objInsert s.houses cellId (houseCount s cellId + 1) }
              s.currentPlayer
          = playerMoney (updateMoney s s.currentPlayer (-cell.houseCost))
              s.currentPlayer := rfl
        rw [e0, playerMoney_updateMoney_self _ _ _ hcur]
        omega
      · unfold houseCount
        show (lookupKey (objInsert s.houses cellId (houseCount s cellId + 1)) cellId).getD 0
          = (lookupKey s.houses cellId).getD 0 + 1
        rw [lookupKey_objInsert, if_pos rfl]
        rfl
    · intro hlf
      rw [hlf] at hleg
      exact Bool.noConfusion hleg
  · refine ⟨fun hl => absurd hl hleg, fun _ => ?_⟩
    rw [hmatch]
    by_cases hbig : cell.type = CellType.property
        ∧ ownsFullColorSet board s cell = true
        ∧ isMortgaged s cell.id = false
        ∧ ¬ (playerMoney s s.currentPlayer < cell.houseCost)
        ∧ houseCount s cell.id < 5
    · rw [if_pos hbig]
      obtain ⟨_, howns, hmort, hcost, hlt5⟩ := hbig
      have hcbF : canBuildHere board s cell = false := by
        cases hcb : canBuildHere board s cell with
        | false => rfl
        | true =>
          have hm' : houseCount s cell.id = m := (hcb1 howns).mp hcb
          have hafter : evenBuildOk (groupCountsAfterBuild board s cell) = true :=
            hEvenIff.mp (hminIff.mp hm')
          have hlegT : specBuildLegal board s cell = true := by
            simp only [specBuildLegal, Bool.and_eq_true, Bool.not_eq_true',
              decide_eq_true_eq]
            exact ⟨⟨⟨⟨howns, hmort⟩, hlt5⟩, hafter⟩, by omega⟩
          exact absurd hlegT hleg
      rw [if_neg (by simp [hcbF])]
    · rw [if_neg hbig]

/-- C7 witness: in a fully owned group with counts [1, 1, 0], building on the
count-1 cell 0 is illegal (the increment would break the even-build rule) and
the command changes nothing, while building on the count-0 cell 2 is legal and
debits the 50 house cost while raising that cell's count to 1. -/
theorem buildCommand_spec_witness :
    specBuildLegal groupBoard exBuildState
        (mkStreet 0 0 60 [2, 10, 30, 90, 160, 250] 50 30) = false
    ∧ buildCommand groupBoard exBuildState 0 = exBuildState
    ∧ specBuildLegal groupBoard exBuildState
        (mkStreet 2 0 80 [6, 30, 90, 270, 400, 550] 50 40) = true
    ∧ playerMoney (buildCommand groupBoard exBuildState 2) exBuildState.currentPlayer
        = playerMoney exBuildState exBuildState.currentPlayer
          - (mkStreet 2 0 80 [6, 30, 90, 270, 400, 550] 50 40).houseCost
    ∧ houseCount (buildCommand groupBoard exBuildState 2) 2
        = houseCount exBuildState 2 + 1 := by
  have h0 := buildCommand_spec groupBoard exBuildState 0
    (mkStreet 0 0 60 [2, 10, 30, 90, 160, 250] 50 30) rfl rfl rfl (by decide) (by decide)
  have h2 := buildCommand_spec groupBoard exBuildState 2
    (mkStreet 2 0 80 [6, 30, 90, 270, 400, 550] 50 40) rfl rfl rfl (by decide) (by decide)
  obtain ⟨hm2, hh2⟩ := h2.1 (by decide)
  exact ⟨by decide, h0.2 (by decide), by decide, hm2, hh2⟩

end MonopolyEngine
